import Mathlib

/-!
Verification development for the snowmeth step-dependency workflow engine.

The definitions below are a shallow embedding of the chapter-generation
component (`NovelWriterEditor`), the generation hooks (`useGeneration`,
`useStories`) and the app-level handlers (`App.tsx`).  JavaScript strings
are modelled as `List Char`; JavaScript truthiness of a string is
emptiness of the list.  Asynchronous handlers are modelled as state
transformers over an explicit component-state record, with the network
outcome (fetch failure, transport error after streaming began, or a clean
close) passed as an explicit parameter, and the server-sent events of one
generation passed as an explicit list.  The typewriter playback effect is
modelled as a step function on the component state; interleavings of
fragment arrivals, playback ticks and the stream close are modelled as
lists of events folded over that step function, with a ghost flag
recording whether the close event has been processed (the source keeps no
such flag).
-/

namespace Snowmeth

/-- Text of a JavaScript string, modelled as its list of characters. -/
abbrev Text := List Char

/-- JavaScript `str.split(' ')`: the single-space-separated segments of a
string.  Splitting the empty string yields one empty segment, and adjacent
spaces yield empty segments, exactly as in JavaScript. -/
def splitOnSpace : Text → List Text
  | [] => [[]]
  | c :: cs =>
    if c = ' ' then [] :: splitOnSpace cs
    else
      match splitOnSpace cs with
      | [] => [[c]]
      | w :: ws => (c :: w) :: ws

/-- The `Chapter` interface of `NovelWriterEditor` (part_005, lines 5-12). -/
structure Chapter where
  chapterNumber : Nat
  title : String
  content : Text
  wordCount : Nat
  generatedAt : Option String
  isGenerating : Bool
deriving DecidableEq, Repr

/-- The per-chapter record written into the parent story by the finalize
commit (part_005, lines 129-139). -/
structure ChapterData where
  content : Text
  word_count : Nat
  generated_at : Option String
  scene_title : String
deriving DecidableEq, Repr

/-- Component state of `NovelWriterEditor` (part_005, lines 27-40),
restricted to the fields the chapter workflow reads or writes.
`storyCommits` is the observation log of the `onStoryUpdate` callback:
each finalize commit appends the chapter map it delivers to the parent. -/
structure EditorState where
  chapters : List Chapter
  selectedChapter : Option Nat
  isGenerating : Bool
  generatingChapter : Option Nat
  error : Option String
  isRefining : Bool
  showRefineInput : Bool
  refineInstructions : Text
  typewriterBuffer : Text
  displayedContent : Text
  storyCommits : List (List (Nat × ChapterData))
deriving DecidableEq, Repr

/-- part_005, lines 415-422: the first chapter without content. -/
def getNextChapterToGenerate (chapters : List Chapter) : Option Nat :=
  (chapters.find? (fun ch => decide (ch.content = []))).map (fun ch => ch.chapterNumber)

/-- part_005, lines 424-432: chapter 1 always; chapter k only when every
chapter numbered below k has content. -/
def canGenerateChapter (chapters : List Chapter) (chapterNumber : Nat) : Bool :=
  if chapterNumber = 1 then true
  else
    (chapters.filter (fun ch => decide (ch.chapterNumber < chapterNumber))).all
      (fun ch => decide (ch.content ≠ []))

/-- part_005, lines 441-443: the highest chapter number among chapters with
content, computed by a fold starting from 0. -/
def lastCompletedChapter (chapters : List Chapter) : Nat :=
  (chapters.filter (fun ch => decide (ch.content ≠ []))).foldl
    (fun mx ch => if ch.chapterNumber > mx then ch.chapterNumber else mx) 0

/-- part_005, lines 437-446: a chapter may be refined only when it has
content and is the most recently completed chapter. -/
def canRefineChapter (chapters : List Chapter) (chapterNumber : Nat) : Bool :=
  match chapters[chapterNumber - 1]? with
  | none => false
  | some ch =>
    if ch.content = [] then false
    else decide (chapterNumber = lastCompletedChapter chapters)

/-- One parsed server-sent event of the generation stream (part_005,
lines 225-237): a content fragment, a completion marker carrying a word
count, or an in-band error payload. -/
inductive SSEvent where
  | content (text : Text)
  | complete (word_count : Nat)
  | sseError (message : String)
deriving DecidableEq, Repr

/-- Local variables of the stream loop in `handleGenerateChapter` and
`handleRefineChapter` (part_005, lines 192-194): the accumulated
`fullContent` and the `wordCount` received from the complete event. -/
structure StreamLoopState where
  fullContent : Text
  wordCount : Nat
deriving DecidableEq, Repr

/-- part_005, lines 223-241: processing of one SSE message.  A content
fragment is appended to `fullContent` and the typewriter buffer is set to
the new `fullContent`; a complete event stores its word count in the local
variable only; an in-band error payload is thrown inside the inner
try/catch, whose handler merely logs it, so it leaves both states
unchanged. -/
def processSSE (ls : StreamLoopState) (es : EditorState) :
    SSEvent → StreamLoopState × EditorState
  | SSEvent.content t =>
    ({ ls with fullContent := ls.fullContent ++ t },
     { es with typewriterBuffer := ls.fullContent ++ t })
  | SSEvent.complete wc => ({ ls with wordCount := wc }, es)
  | SSEvent.sseError _ => (ls, es)

/-- The stream-reading loop (part_005, lines 209-243): fold the SSE
messages over `processSSE`, starting from fresh loop variables. -/
def runStream (es : EditorState) (events : List SSEvent) :
    StreamLoopState × EditorState :=
  events.foldl (fun p ev => processSSE p.1 p.2 ev) (⟨[], 0⟩, es)

/-- part_005, lines 203-207: before streaming, the target chapter is
cleared and flagged as generating; all other chapters are untouched. -/
def clearChapterForGeneration (chapters : List Chapter) (chapterNumber : Nat) :
    List Chapter :=
  chapters.map (fun ch =>
    if ch.chapterNumber = chapterNumber then
      { ch with content := [], wordCount := 0, generatedAt := none,
                isGenerating := true }
    else ch)

/-- Network outcome of one generation or refinement request.
`fetchFail` covers a rejected fetch, a non-ok response, or a missing
body: the outer catch fires before any chapter state was touched.
`transportError` covers a rejected `reader.read()` after streaming began:
the listed events were processed, then the outer catch fires.
`streamOk` is a clean close (`done`) after processing the listed events. -/
inductive FetchOutcome where
  | fetchFail
  | transportError (events : List SSEvent) (message : String)
  | streamOk (events : List SSEvent)
deriving DecidableEq, Repr

/-- part_005, lines 167-256: `handleGenerateChapter` as a state
transformer.  It sets the global generating flags, and on a successful
fetch selects the chapter, resets the typewriter state, clears the target
chapter and folds the stream events.  The outer catch records the error
and clears the global flags but does not restore the cleared chapter.
No commit is performed here; finalize happens in the typewriter effect. -/
def handleGenerateChapter (s : EditorState) (chapterNumber : Nat)
    (outcome : FetchOutcome) : EditorState :=
  let s1 := { s with isGenerating := true,
                     generatingChapter := some chapterNumber,
                     error := none }
  match outcome with
  | FetchOutcome.fetchFail =>
    { s1 with error := some "Failed to generate chapter",
              isGenerating := false, generatingChapter := none }
  | FetchOutcome.transportError events msg =>
    let s2 := { s1 with selectedChapter := some chapterNumber,
                        typewriterBuffer := [], displayedContent := [],
                        chapters := clearChapterForGeneration s1.chapters chapterNumber }
    let s3 := (runStream s2 events).2
    { s3 with error := some msg, isGenerating := false,
              generatingChapter := none }
  | FetchOutcome.streamOk events =>
    let s2 := { s1 with selectedChapter := some chapterNumber,
                        typewriterBuffer := [], displayedContent := [],
                        chapters := clearChapterForGeneration s1.chapters chapterNumber }
    (runStream s2 events).2

/-- part_005, lines 322-409: `handleRefineChapter` as a state transformer.
Same streaming skeleton as generation, with the refining flag instead of
the generating flags, no chapter selection, and the refine input closed
after a clean close.  It performs no frontier check of its own. -/
def handleRefineChapter (s : EditorState) (chapterNumber : Nat)
    (outcome : FetchOutcome) : EditorState :=
  let s1 := { s with isRefining := true, error := none }
  match outcome with
  | FetchOutcome.fetchFail =>
    { s1 with error := some "Failed to refine chapter", isRefining := false }
  | FetchOutcome.transportError events msg =>
    let s2 := { s1 with typewriterBuffer := [], displayedContent := [],
                        chapters := clearChapterForGeneration s1.chapters chapterNumber }
    let s3 := (runStream s2 events).2
    { s3 with error := some msg, isRefining := false }
  | FetchOutcome.streamOk events =>
    let s2 := { s1 with typewriterBuffer := [], displayedContent := [],
                        chapters := clearChapterForGeneration s1.chapters chapterNumber }
    let s3 := (runStream s2 events).2
    { s3 with showRefineInput := false, refineInstructions := [] }

/-- part_005, line 259: whether any chapter after the given one has
content. -/
def hasLaterChapters (chapters : List Chapter) (chapterNumber : Nat) : Bool :=
  chapters.any (fun ch =>
    decide (chapterNumber < ch.chapterNumber) && decide (ch.content ≠ []))

/-- part_005, lines 266-272: clear every chapter strictly after the given
one (content emptied, word count zeroed, timestamp removed). -/
def clearLaterChapters (chapters : List Chapter) (chapterNumber : Nat) :
    List Chapter :=
  chapters.map (fun ch =>
    if chapterNumber < ch.chapterNumber then
      { ch with content := [], wordCount := 0, generatedAt := none }
    else ch)

/-- part_005, lines 258-276: `handleRegenerateChapter`.  After a window
confirmation, chapters after the target are cleared when any of them has
content, then `handleGenerateChapter` runs on the target. -/
def handleRegenerateChapter (s : EditorState) (chapterNumber : Nat)
    (confirmed : Bool) (outcome : FetchOutcome) : EditorState :=
  if confirmed then
    let s1 :=
      if hasLaterChapters s.chapters chapterNumber then
        { s with chapters := clearLaterChapters s.chapters chapterNumber }
      else s
    handleGenerateChapter s1 chapterNumber outcome
  else s

/-- part_005, lines 108-118: the finalize mapping applied to the chapter
list when the typewriter catches up: every chapter flagged as generating
receives the full buffer as content, a word count derived by splitting the
buffer on single spaces, a fresh timestamp, and is unflagged. -/
def finalizeChapters (chapters : List Chapter) (buffer : Text) (now : String) :
    List Chapter :=
  chapters.map (fun ch =>
    if ch.isGenerating then
      { ch with content := buffer,
                wordCount := (splitOnSpace buffer).length,
                generatedAt := some now,
                isGenerating := false }
    else ch)

/-- part_005, lines 129-139: the chapter map delivered to `onStoryUpdate`,
one entry per chapter with content, in list order. -/
def updatedChaptersData (chapters : List Chapter) : List (Nat × ChapterData) :=
  chapters.foldl (fun acc ch =>
    if ch.content ≠ [] then
      acc ++ [(ch.chapterNumber,
        { content := ch.content, word_count := ch.wordCount,
          generated_at := ch.generatedAt, scene_title := ch.title })]
    else acc) []

/-- part_005, lines 87-159: one firing of the typewriter timer.  When the
buffer is strictly ahead of the displayed text, the displayed text becomes
the buffer cut after one more character; if that catches the displayed
text up to a non-empty buffer, the finalize block runs: the chapters are
rewritten by `finalizeChapters`, the global generating and refining flags
are cleared, and the resulting chapter map is committed to the parent via
`onStoryUpdate` (recorded in `storyCommits`).  The source tests only this
catch-up condition; it keeps no record of whether the stream has closed. -/
def typewriterTick (s : EditorState) (now : String) : EditorState :=
  if s.displayedContent.length < s.typewriterBuffer.length then
    let newContent := s.typewriterBuffer.take (s.displayedContent.length + 1)
    if s.typewriterBuffer.length ≤ newContent.length ∧ 0 < s.typewriterBuffer.length then
      let finalChapters := finalizeChapters s.chapters s.typewriterBuffer now
      { s with displayedContent := newContent,
               chapters := finalChapters,
               isGenerating := false,
               generatingChapter := none,
               isRefining := false,
               storyCommits := s.storyCommits ++ [updatedChaptersData finalChapters] }
    else { s with displayedContent := newContent }
  else s

/-- One event of an interleaved playback run: a content fragment arrives
(part_005, lines 231-234), the typewriter timer fires (lines 93-151), or
the stream reader reports done (line 212). -/
inductive PlayEvent where
  | frag (t : Text)
  | tick (now : String)
  | close
deriving DecidableEq, Repr

/-- Interleaved run state: the component state, a ghost flag recording
whether the close event has been processed, and a ghost log holding, for
each finalize commit that fired, the value of the ghost flag at that
moment.  The source itself keeps no stream-closed flag. -/
structure StreamRun where
  est : EditorState
  streamClosed : Bool
  commitLog : List Bool
deriving DecidableEq, Repr

/-- One interleaving step.  A fragment appends to the typewriter buffer
(`fullContent` accumulation, part_005 lines 232-234); no fragment arrives
after the close; a tick applies `typewriterTick` and logs a commit when
the commit count grew. -/
def playStep (r : StreamRun) : PlayEvent → StreamRun
  | PlayEvent.frag t =>
    if r.streamClosed then r
    else { r with est := { r.est with
             typewriterBuffer := r.est.typewriterBuffer ++ t } }
  | PlayEvent.close => { r with streamClosed := true }
  | PlayEvent.tick now =>
    { r with est := typewriterTick r.est now,
             commitLog := r.commitLog ++
               (if (typewriterTick r.est now).storyCommits.length =
                   r.est.storyCommits.length then []
                else [r.streamClosed]) }

/-- Fold an interleaving of playback events from a starting component
state, with the stream open and no commit logged. -/
def playRun (s0 : EditorState) (events : List PlayEvent) : StreamRun :=
  events.foldl playStep { est := s0, streamClosed := false, commitLog := [] }

/-- The displayed text is the cut of the typewriter buffer at its own
length, i.e. an initial segment of the buffer. -/
def DispInv (es : EditorState) : Prop :=
  es.displayedContent = es.typewriterBuffer.take es.displayedContent.length

/-- The set of chapters with content is downward closed: any chapter with
content has every lower-numbered chapter carrying content too. -/
def ChaptersDownwardClosed (chapters : List Chapter) : Prop :=
  ∀ ch ∈ chapters, ch.content ≠ [] →
    ∀ ch' ∈ chapters, ch'.chapterNumber < ch.chapterNumber → ch'.content ≠ []

instance : DecidablePred ChaptersDownwardClosed := fun chs => by
  unfold ChaptersDownwardClosed; infer_instance

/-- part_005, lines 508-518: the chapter-list Generate button is rendered
for a chapter without content that is not generating and passes
`canGenerateChapter`, and it is disabled while a generation is active.
This is the conjunction of the render condition and the enabled state. -/
def generateButtonEnabled (s : EditorState) (ch : Chapter) : Bool :=
  decide (ch.content = []) && !ch.isGenerating &&
    canGenerateChapter s.chapters ch.chapterNumber && !s.isGenerating

/-- part_005, lines 531 and 607-616: the chapter-viewer placeholder and
its large Generate button, shown for a selected chapter that has no
content and is not generating; the button is disabled only while a
generation is active.  It does not consult `canGenerateChapter`. -/
def placeholderGenerateEnabled (s : EditorState) (k : Nat) : Bool :=
  decide (s.selectedChapter = some k) &&
    !((s.chapters[k - 1]?).elim false
        (fun ch => decide (ch.content ≠ []) || ch.isGenerating)) &&
    !s.isGenerating

/-- part_005, lines 545-553: the Regenerate button, shown for a selected
chapter that is not generating, disabled while generating or refining. -/
def regenerateButtonEnabled (s : EditorState) (k : Nat) : Bool :=
  decide (s.selectedChapter = some k) &&
    ((s.chapters[k - 1]?).elim false
        (fun ch => decide (ch.content ≠ []) || ch.isGenerating)) &&
    !((s.chapters[k - 1]?).elim false (fun ch => ch.isGenerating)) &&
    !(s.isGenerating || s.isRefining)

/-- part_005, lines 557-578: the Apply Refinement button, shown when the
refine input is open for a selected frontier chapter that is not
generating, disabled when the instructions are blank or while refining. -/
def refineSubmitEnabled (s : EditorState) (k : Nat) : Bool :=
  s.showRefineInput && decide (s.selectedChapter = some k) &&
    canRefineChapter s.chapters k &&
    !((s.chapters[k - 1]?).elim false (fun ch => ch.isGenerating)) &&
    decide (s.refineInstructions.filter (fun c => !c.isWhitespace) ≠ []) &&
    !s.isRefining

/-- part_003, lines 1110-1160: the per-step generation endpoint table.
Steps 1 through 9 post to a generation URL; step 10 has none (the novel
writer component streams chapters itself). -/
def GENERATION_ENDPOINTS : Nat → Option String
  | 1 => some "generate_initial_sentence"
  | 2 => some "generate_paragraph_summary"
  | 3 => some "generate_characters"
  | 4 => some "generate_plot_structure"
  | 5 => some "generate_character_synopses"
  | 6 => some "generate_detailed_synopsis"
  | 7 => some "generate_character_charts"
  | 8 => some "generate_scene_breakdown"
  | 9 => some "generate_scene_expansions"
  | _ => none

/-- The story record manipulated by the app shell: its identity, current
step, and the per-step content map (types/simple, used by App.tsx). -/
structure Story where
  story_id : String
  current_step : Nat
  steps : List (Nat × Text)
deriving DecidableEq, Repr

/-- Modelled from the spec: the backend advance endpoint invoked by
useStories.advanceStory (POST /api/stories/id/next); the backend source is
not part of this repository.  Per the spec, Advance requires the current
step to hold non-blank content, fails with StepNotReady otherwise, and on
success moves the frontier one step forward without committing content. -/
def advanceStoryBackend (story : Story) : Except String Story :=
  match story.steps.lookup story.current_step with
  | none => Except.error "StepNotReady"
  | some c =>
    if c.filter (fun ch => !ch.isWhitespace) = [] then
      Except.error "StepNotReady"
    else Except.ok { story with current_step := story.current_step + 1 }

/-- Observable actions performed by the app-level advance handler. -/
inductive AdvanceAction where
  | setStory (story : Story)
  | stepChange (stepNum : Nat)
  | generationRequested (stepNum : Nat) (url : String)
  | errorSet (message : String)
deriving DecidableEq, Repr

/-- useGeneration.generateContent (useHashRouter.ts concatenation,
lines 71-102): with no endpoint, step 10 silently returns and any other
step reports an error; with an endpoint, a generation request is issued
unconditionally, with no busy check. -/
def generateContentActions (stepNum : Nat) : List AdvanceAction :=
  match GENERATION_ENDPOINTS stepNum with
  | none =>
    if stepNum = 10 then []
    else [AdvanceAction.errorSet "Generation not yet implemented"]
  | some url => [AdvanceAction.generationRequested stepNum url]

/-- App.tsx, lines 161-174: `handleAdvanceStory` advances the story via
the backend, stores the updated story, navigates to the new current step,
and then automatically triggers generation for that step. -/
def handleAdvanceStory (story : Story) : List AdvanceAction :=
  match advanceStoryBackend story with
  | Except.error _ => [AdvanceAction.errorSet "Failed to advance story"]
  | Except.ok updated =>
    AdvanceAction.setStory updated ::
    AdvanceAction.stepChange updated.current_step ::
    generateContentActions updated.current_step

/-- Content fragments carried by a list of SSE messages, in order. -/
def sseContents (events : List SSEvent) : List Text :=
  events.filterMap (fun ev =>
    match ev with
    | SSEvent.content t => some t
    | _ => none)

lemma processSSE_foldl_snd (events : List SSEvent) :
    ∀ (ls : StreamLoopState) (es : EditorState),
      es.typewriterBuffer = ls.fullContent →
      (events.foldl (fun p ev => processSSE p.1 p.2 ev) (ls, es)).2 =
        { es with typewriterBuffer := ls.fullContent ++ (sseContents events).flatten } := by
  induction events with
  | nil =>
    intro ls es h
    simp only [List.foldl_nil, sseContents, List.filterMap_nil, List.flatten_nil,
      List.append_nil]
    rw [← h]
  | cons ev evs ih =>
    intro ls es h
    cases ev with
    | content t =>
      rw [List.foldl_cons]
      refine (ih { ls with fullContent := ls.fullContent ++ t }
        { es with typewriterBuffer := ls.fullContent ++ t } rfl).trans ?_
      simp [sseContents, List.filterMap_cons, List.append_assoc]
    | complete wc =>
      rw [List.foldl_cons]
      refine (ih { ls with wordCount := wc } es h).trans ?_
      simp [sseContents, List.filterMap_cons]
    | sseError msg =>
      rw [List.foldl_cons]
      refine (ih ls es h).trans ?_
      simp [sseContents, List.filterMap_cons]

lemma runStream_snd (es : EditorState) (events : List SSEvent)
    (h : es.typewriterBuffer = []) :
    (runStream es events).2 =
      { es with typewriterBuffer := (sseContents events).flatten } := by
  unfold runStream
  rw [processSSE_foldl_snd events ⟨[], 0⟩ es h]
  simp

lemma runStream_chapters (es : EditorState) (events : List SSEvent)
    (h : es.typewriterBuffer = []) :
    (runStream es events).2.chapters = es.chapters := by
  rw [runStream_snd es events h]

lemma runStream_storyCommits (es : EditorState) (events : List SSEvent)
    (h : es.typewriterBuffer = []) :
    (runStream es events).2.storyCommits = es.storyCommits := by
  rw [runStream_snd es events h]

lemma runStream_error (es : EditorState) (events : List SSEvent)
    (h : es.typewriterBuffer = []) :
    (runStream es events).2.error = es.error := by
  rw [runStream_snd es events h]

lemma runStream_isGenerating (es : EditorState) (events : List SSEvent)
    (h : es.typewriterBuffer = []) :
    (runStream es events).2.isGenerating = es.isGenerating := by
  rw [runStream_snd es events h]

lemma runStream_generatingChapter (es : EditorState) (events : List SSEvent)
    (h : es.typewriterBuffer = []) :
    (runStream es events).2.generatingChapter = es.generatingChapter := by
  rw [runStream_snd es events h]

lemma runStream_typewriterBuffer (es : EditorState) (events : List SSEvent)
    (h : es.typewriterBuffer = []) :
    (runStream es events).2.typewriterBuffer = (sseContents events).flatten := by
  rw [runStream_snd es events h]

lemma typewriterTick_of_caughtUp (es : EditorState) (now : String)
    (h : ¬ es.displayedContent.length < es.typewriterBuffer.length) :
    typewriterTick es now = es := by
  simp [typewriterTick, h]

lemma typewriterTick_of_advance (es : EditorState) (now : String)
    (h1 : es.displayedContent.length < es.typewriterBuffer.length)
    (h2 : es.displayedContent.length + 1 < es.typewriterBuffer.length) :
    typewriterTick es now =
      { es with displayedContent :=
          es.typewriterBuffer.take (es.displayedContent.length + 1) } := by
  rw [typewriterTick, if_pos h1, if_neg]
  simp only [List.length_take]
  omega

lemma typewriterTick_of_finalize (es : EditorState) (now : String)
    (h2 : es.typewriterBuffer.length = es.displayedContent.length + 1) :
    typewriterTick es now =
      { es with displayedContent := es.typewriterBuffer,
                chapters := finalizeChapters es.chapters es.typewriterBuffer now,
                isGenerating := false,
                generatingChapter := none,
                isRefining := false,
                storyCommits := es.storyCommits ++
                  [updatedChaptersData
                    (finalizeChapters es.chapters es.typewriterBuffer now)] } := by
  have h1 : es.displayedContent.length < es.typewriterBuffer.length := by omega
  rw [typewriterTick, if_pos h1, if_pos]
  · rw [show es.typewriterBuffer.take (es.displayedContent.length + 1) =
        es.typewriterBuffer from by rw [← h2, List.take_length]]
  · simp only [List.length_take]
    omega

lemma typewriterTick_displayed (es : EditorState) (now : String)
    (h1 : es.displayedContent.length < es.typewriterBuffer.length) :
    (typewriterTick es now).displayedContent =
      es.typewriterBuffer.take (es.displayedContent.length + 1) := by
  by_cases h2 : es.displayedContent.length + 1 < es.typewriterBuffer.length
  · rw [typewriterTick_of_advance es now h1 h2]
  · have h3 : es.typewriterBuffer.length = es.displayedContent.length + 1 := by omega
    rw [typewriterTick_of_finalize es now h3]
    rw [← h3, List.take_length]

lemma DispInv_length {es : EditorState} (h : DispInv es) :
    es.displayedContent.length ≤ es.typewriterBuffer.length := by
  have := congrArg List.length h
  rw [List.length_take] at this
  omega

lemma DispInv_tick (es : EditorState) (now : String) (h : DispInv es) :
    DispInv (typewriterTick es now) := by
  by_cases h1 : es.displayedContent.length < es.typewriterBuffer.length
  · by_cases h2 : es.displayedContent.length + 1 < es.typewriterBuffer.length
    · rw [typewriterTick_of_advance es now h1 h2]
      unfold DispInv
      simp only [List.length_take]
      rw [min_eq_left (by omega)]
    · have h3 : es.typewriterBuffer.length = es.displayedContent.length + 1 := by
        omega
      rw [typewriterTick_of_finalize es now h3]
      unfold DispInv
      simp [List.take_length]
  · rw [typewriterTick_of_caughtUp es now h1]
    exact h

lemma DispInv_playStep (r : StreamRun) (ev : PlayEvent) (h : DispInv r.est) :
    DispInv (playStep r ev).est := by
  cases ev with
  | frag t =>
    by_cases hc : r.streamClosed
    · simp [playStep, hc, h]
    · simp only [playStep, hc]
      unfold DispInv at h ⊢
      simp only [Bool.false_eq_true, if_false]
      rw [List.take_append_of_le_length (DispInv_length h)]
      exact h
  | tick now =>
    simp only [playStep]
    exact DispInv_tick r.est now h
  | close =>
    simp [playStep, h]

lemma DispInv_playRun_aux (events : List PlayEvent) :
    ∀ (r : StreamRun), DispInv r.est →
      DispInv (events.foldl playStep r).est := by
  induction events with
  | nil => intro r h; exact h
  | cons ev evs ih =>
    intro r h
    rw [List.foldl_cons]
    exact ih _ (DispInv_playStep r ev h)

lemma playStep_tick_noop (r : StreamRun) (now : String)
    (h : ¬ r.est.displayedContent.length < r.est.typewriterBuffer.length) :
    playStep r (PlayEvent.tick now) = r := by
  simp [playStep, typewriterTick_of_caughtUp r.est now h]

lemma ticks_noop (now : String) : ∀ (n : Nat) (r : StreamRun),
    ¬ r.est.displayedContent.length < r.est.typewriterBuffer.length →
    (List.replicate n (PlayEvent.tick now)).foldl playStep r = r := by
  intro n
  induction n with
  | zero => intro r _; rfl
  | succ n ih =>
    intro r h
    rw [List.replicate_succ, List.foldl_cons, playStep_tick_noop r now h]
    exact ih r h

lemma ticks_catch_up (now : String) : ∀ (n : Nat) (r : StreamRun),
    DispInv r.est →
    r.est.displayedContent.length < r.est.typewriterBuffer.length →
    r.est.typewriterBuffer.length - r.est.displayedContent.length ≤ n →
    ((List.replicate n (PlayEvent.tick now)).foldl playStep r).commitLog =
        r.commitLog ++ [r.streamClosed] ∧
    ((List.replicate n (PlayEvent.tick now)).foldl playStep r).est.displayedContent =
        r.est.typewriterBuffer ∧
    ((List.replicate n (PlayEvent.tick now)).foldl playStep r).est.typewriterBuffer =
        r.est.typewriterBuffer ∧
    ((List.replicate n (PlayEvent.tick now)).foldl playStep r).streamClosed =
        r.streamClosed := by
  intro n
  induction n with
  | zero =>
    intro r _ h2 h3
    omega
  | succ n ih =>
    intro r h1 h2 h3
    rw [List.replicate_succ, List.foldl_cons]
    by_cases hEq : r.est.typewriterBuffer.length = r.est.displayedContent.length + 1
    · have hTickEq := typewriterTick_of_finalize r.est now hEq
      have hstep : playStep r (PlayEvent.tick now) =
          { r with
            est := typewriterTick r.est now,
            commitLog := r.commitLog ++ [r.streamClosed] } := by
        simp only [playStep]
        rw [hTickEq]
        simp
      rw [hstep]
      have hnoop := ticks_noop now n
        { r with est := typewriterTick r.est now,
                 commitLog := r.commitLog ++ [r.streamClosed] }
        (by rw [hTickEq]; simp)
      rw [hnoop, hTickEq]
      simp
    · have h2' : r.est.displayedContent.length + 1 < r.est.typewriterBuffer.length := by
        omega
      have hTickEq := typewriterTick_of_advance r.est now h2 h2'
      have hstep : playStep r (PlayEvent.tick now) =
          { r with est := typewriterTick r.est now } := by
        simp only [playStep]
        rw [hTickEq]
        simp
      rw [hstep]
      have hbuf : (typewriterTick r.est now).typewriterBuffer =
          r.est.typewriterBuffer := by
        rw [hTickEq]
      have hdisp : (typewriterTick r.est now).displayedContent.length =
          r.est.displayedContent.length + 1 := by
        rw [hTickEq]
        simp only [List.length_take]
        omega
      have hIH := ih { r with est := typewriterTick r.est now }
        (DispInv_tick r.est now h1)
        (by simp only []; rw [hdisp, hbuf]; omega)
        (by simp only []; rw [hdisp, hbuf]; omega)
      rw [hbuf] at hIH
      exact hIH

lemma playRun_frags (fs : List Text) : ∀ (r : StreamRun), r.streamClosed = false →
    (fs.map PlayEvent.frag).foldl playStep r =
      { r with est := { r.est with
          typewriterBuffer := r.est.typewriterBuffer ++ fs.flatten } } := by
  induction fs with
  | nil =>
    intro r h
    simp
  | cons t ts ih =>
    intro r h
    rw [List.map_cons, List.foldl_cons]
    have hstep : playStep r (PlayEvent.frag t) =
        { r with est := { r.est with
            typewriterBuffer := r.est.typewriterBuffer ++ t } } := by
      simp [playStep, h]
    rw [hstep]
    refine (ih { r with est := { r.est with
        typewriterBuffer := r.est.typewriterBuffer ++ t } } h).trans ?_
    simp [List.append_assoc]

lemma playRun_no_close_streamClosed (events : List PlayEvent) :
    ∀ (r : StreamRun), PlayEvent.close ∉ events → r.streamClosed = false →
      (events.foldl playStep r).streamClosed = false := by
  induction events with
  | nil =>
    intro r _ h
    exact h
  | cons ev evs ih =>
    intro r hmem h
    rw [List.foldl_cons]
    refine ih _ (fun hm => hmem (List.mem_cons_of_mem ev hm)) ?_
    cases ev with
    | frag t => simp [playStep, h]
    | tick now => simp [playStep, h]
    | close => exact absurd (List.mem_cons_self _ _) hmem

lemma foldl_chapterMax_init_le :
    ∀ (l : List Chapter) (a : Nat),
      a ≤ l.foldl (fun mx ch => if ch.chapterNumber > mx then ch.chapterNumber else mx) a := by
  intro l
  induction l with
  | nil => intro a; exact le_refl a
  | cons x xs ih =>
    intro a
    rw [List.foldl_cons]
    refine le_trans ?_ (ih _)
    split <;> omega

lemma foldl_chapterMax_mem_le :
    ∀ (l : List Chapter) (a : Nat) (ch : Chapter), ch ∈ l →
      ch.chapterNumber ≤
        l.foldl (fun mx ch => if ch.chapterNumber > mx then ch.chapterNumber else mx) a := by
  intro l
  induction l with
  | nil => intro a ch h; cases h
  | cons x xs ih =>
    intro a ch h
    rw [List.foldl_cons]
    rcases List.mem_cons.mp h with hx | hxs
    · subst hx
      refine le_trans ?_ (foldl_chapterMax_init_le xs _)
      split <;> omega
    · exact ih _ ch hxs

lemma foldl_chapterMax_attained :
    ∀ (l : List Chapter) (a : Nat),
      l.foldl (fun mx ch => if ch.chapterNumber > mx then ch.chapterNumber else mx) a = a ∨
      ∃ ch ∈ l,
        l.foldl (fun mx ch => if ch.chapterNumber > mx then ch.chapterNumber else mx) a =
          ch.chapterNumber := by
  intro l
  induction l with
  | nil => intro a; exact Or.inl rfl
  | cons x xs ih =>
    intro a
    rw [List.foldl_cons]
    rcases ih (if x.chapterNumber > a then x.chapterNumber else a) with h | ⟨ch, hm, he⟩
    · by_cases hx : x.chapterNumber > a
      · right
        exact ⟨x, List.mem_cons_self x xs, by rw [h, if_pos hx]⟩
      · left
        rw [h, if_neg hx]
    · right
      exact ⟨ch, List.mem_cons_of_mem x hm, he⟩

lemma lastCompletedChapter_ge {chapters : List Chapter} {ch : Chapter}
    (hm : ch ∈ chapters) (hc : ch.content ≠ []) :
    ch.chapterNumber ≤ lastCompletedChapter chapters := by
  unfold lastCompletedChapter
  exact foldl_chapterMax_mem_le _ 0 ch (List.mem_filter.mpr ⟨hm, by simpa using hc⟩)

lemma lastCompletedChapter_attained (chapters : List Chapter) :
    lastCompletedChapter chapters = 0 ∨
    ∃ ch ∈ chapters, ch.content ≠ [] ∧
      ch.chapterNumber = lastCompletedChapter chapters := by
  unfold lastCompletedChapter
  rcases foldl_chapterMax_attained
      (chapters.filter (fun ch => decide (ch.content ≠ []))) 0 with h | ⟨ch, hm, he⟩
  · exact Or.inl h
  · rcases List.mem_filter.mp hm with ⟨hmem, hp⟩
    exact Or.inr ⟨ch, hmem, by simpa using hp, he.symm⟩

lemma updatedChaptersData_eq_aux (l : List Chapter) :
    ∀ (acc : List (Nat × ChapterData)),
      l.foldl (fun acc ch =>
        if ch.content ≠ [] then
          acc ++ [(ch.chapterNumber,
            { content := ch.content, word_count := ch.wordCount,
              generated_at := ch.generatedAt, scene_title := ch.title })]
        else acc) acc =
      acc ++ (l.filter (fun ch => decide (ch.content ≠ []))).map (fun ch =>
        (ch.chapterNumber,
          { content := ch.content, word_count := ch.wordCount,
            generated_at := ch.generatedAt, scene_title := ch.title })) := by
  induction l with
  | nil => intro acc; simp
  | cons x xs ih =>
    intro acc
    rw [List.foldl_cons]
    by_cases hx : x.content = []
    · rw [if_neg (by simp [hx]), ih acc, List.filter_cons_of_neg (by simp [hx])]
    · rw [if_pos hx, ih _, List.filter_cons_of_pos (by simpa using hx)]
      simp

lemma updatedChaptersData_eq (chapters : List Chapter) :
    updatedChaptersData chapters =
      (chapters.filter (fun ch => decide (ch.content ≠ []))).map (fun ch =>
        (ch.chapterNumber,
          { content := ch.content, word_count := ch.wordCount,
            generated_at := ch.generatedAt, scene_title := ch.title })) := by
  unfold updatedChaptersData
  simpa using updatedChaptersData_eq_aux chapters []

/-- Three chapter slots, none generated yet. -/
def threeEmptyChapters : List Chapter :=
  [{ chapterNumber := 1, title := "Chapter 1", content := [], wordCount := 0,
     generatedAt := none, isGenerating := false },
   { chapterNumber := 2, title := "Chapter 2", content := [], wordCount := 0,
     generatedAt := none, isGenerating := false },
   { chapterNumber := 3, title := "Chapter 3", content := [], wordCount := 0,
     generatedAt := none, isGenerating := false }]

/-- Editor state with three empty chapters and chapter 3 selected, no
generation active. -/
def outOfOrderState : EditorState :=
  { chapters := threeEmptyChapters, selectedChapter := some 3,
    isGenerating := false, generatingChapter := none, error := none,
    isRefining := false, showRefineInput := false, refineInstructions := [],
    typewriterBuffer := [], displayedContent := [], storyCommits := [] }

/-- Three chapters, all generated. -/
def threeFullChapters : List Chapter :=
  [{ chapterNumber := 1, title := "Chapter 1", content := ['a'], wordCount := 1,
     generatedAt := some "t1", isGenerating := false },
   { chapterNumber := 2, title := "Chapter 2", content := ['b'], wordCount := 1,
     generatedAt := some "t2", isGenerating := false },
   { chapterNumber := 3, title := "Chapter 3", content := ['c'], wordCount := 1,
     generatedAt := some "t3", isGenerating := false }]

/-- Editor state with chapters 1 to 3 generated and chapter 2 selected. -/
def frontierState : EditorState :=
  { chapters := threeFullChapters, selectedChapter := some 2,
    isGenerating := false, generatingChapter := none, error := none,
    isRefining := false, showRefineInput := true, refineInstructions := ['x'],
    typewriterBuffer := [], displayedContent := [], storyCommits := [] }

/-- C5 (amended): chapter admissibility is the pure UI predicate
`canGenerateChapter`: it is true for chapter 1 unconditionally, and for a
higher chapter exactly when every chapter numbered below it has non-empty
content.  The chapter-list Generate control is rendered only when this
predicate holds; no ChapterOutOfOrder failure exists and the generation
handler itself performs no ordering check. -/
theorem canGenerateChapter_iff (chapters : List Chapter) (k : Nat) :
    canGenerateChapter chapters k = true ↔
      (k = 1 ∨ ∀ ch ∈ chapters, ch.chapterNumber < k → ch.content ≠ []) := by
  unfold canGenerateChapter
  by_cases hk : k = 1
  · simp [hk]
  · rw [if_neg hk]
    simp only [List.all_eq_true, List.mem_filter, decide_eq_true_eq]
    constructor
    · intro h
      exact Or.inr fun ch hm hlt => h ch ⟨hm, by simpa using hlt⟩
    · rintro (h1 | h) ch ⟨hm, hlt⟩
      · exact absurd h1 hk
      · exact h ch hm (by simpa using hlt)

/-- Witness for `canGenerateChapter_iff` at chapter 1 of the empty board. -/
theorem canGenerateChapter_iff_witness :
    canGenerateChapter threeEmptyChapters 1 = true ↔
      (1 = 1 ∨ ∀ ch ∈ threeEmptyChapters, ch.chapterNumber < 1 → ch.content ≠ []) :=
  canGenerateChapter_iff threeEmptyChapters 1

/-- C5 counterexample: generating chapter 3 while chapters 1 and 2 are
empty is not admissible by the predicate, yet the handler raises no error
and mutates the chapter list (the target is cleared and flagged as
generating); no ChapterOutOfOrder failure occurs anywhere. -/
theorem out_of_order_generate_not_rejected :
    canGenerateChapter threeEmptyChapters 3 = false ∧
    (handleGenerateChapter outOfOrderState 3
      (FetchOutcome.streamOk [SSEvent.content ['H', 'i']])).error = none ∧
    (handleGenerateChapter outOfOrderState 3
      (FetchOutcome.streamOk [SSEvent.content ['H', 'i']])).chapters ≠
      outOfOrderState.chapters := by
  decide

/-- C6 (amended): under the indexing the component maintains (the chapter
at list index i carries chapter number i+1), `canRefineChapter` holds
exactly when the chapter has content and is the highest-numbered chapter
with content.  The Refine control is rendered only when this predicate
holds; no NotFrontierChapter failure exists and the refine handler itself
performs no frontier check. -/
theorem canRefineChapter_iff (chapters : List Chapter) (k : Nat)
    (hIdx : ∀ i : Fin chapters.length, (chapters.get i).chapterNumber = i.1 + 1) :
    canRefineChapter chapters k = true ↔
      ((∃ ch ∈ chapters, ch.chapterNumber = k ∧ ch.content ≠ []) ∧
        ∀ ch ∈ chapters, ch.content ≠ [] → ch.chapterNumber ≤ k) := by
  unfold canRefineChapter
  rcases hv : chapters[k - 1]? with _ | ch
  · have hlen : chapters.length ≤ k - 1 := List.getElem?_eq_none_iff.mp hv
    simp only [Bool.false_eq_true, false_iff]
    rintro ⟨⟨ch0, hm0, hnum0, _⟩, _⟩
    obtain ⟨i, hget⟩ := List.mem_iff_get.mp hm0
    have hi := hIdx i
    rw [hget] at hi
    have := i.2
    omega
  · obtain ⟨hlt, hval⟩ := List.getElem?_eq_some.mp hv
    have hnum : ch.chapterNumber = (k - 1) + 1 := by
      have := hIdx ⟨k - 1, hlt⟩
      rw [List.get_eq_getElem, hval] at this
      exact this
    have hmem : ch ∈ chapters := List.getElem?_mem hv
    show (if ch.content = [] then false
      else decide (k = lastCompletedChapter chapters)) = true ↔ _
    by_cases hc : ch.content = []
    · simp only [if_pos hc, Bool.false_eq_true, false_iff]
      rintro ⟨⟨ch0, hm0, hnum0, hc0⟩, _⟩
      obtain ⟨i, hget⟩ := List.mem_iff_get.mp hm0
      have hi := hIdx i
      rw [hget] at hi
      have hik : i.1 = k - 1 := by omega
      have hq0 : chapters[i.1]? = some ch0 := by
        rw [List.getElem?_eq_getElem i.2, ← List.get_eq_getElem, hget]
      rw [hik, hv] at hq0
      have : ch0 = ch := by
        injection hq0 with hq0
        exact hq0.symm
      rw [this] at hc0
      exact hc0 hc
    · rw [if_neg hc]
      simp only [decide_eq_true_eq]
      constructor
      · intro hk
        have hle := lastCompletedChapter_ge hmem hc
        have hk1 : 1 ≤ k := by omega
        have hchk : ch.chapterNumber = k := by omega
        refine ⟨⟨ch, hmem, hchk, hc⟩, fun ch0 hm0 hc0 => ?_⟩
        have := lastCompletedChapter_ge hm0 hc0
        omega
      · rintro ⟨⟨ch0, hm0, hnum0, hc0⟩, hub⟩
        have hge := lastCompletedChapter_ge hm0 hc0
        rcases lastCompletedChapter_attained chapters with h0 | ⟨ch1, hm1, hc1, hn1⟩
        · obtain ⟨i, hget⟩ := List.mem_iff_get.mp hm0
          have hi := hIdx i
          rw [hget] at hi
          omega
        · have := hub ch1 hm1 hc1
          omega

/-- Witness for `canRefineChapter_iff`: refining chapter 3 of the fully
generated board is admissible. -/
theorem canRefineChapter_iff_witness :
    canRefineChapter threeFullChapters 3 = true ↔
      ((∃ ch ∈ threeFullChapters, ch.chapterNumber = 3 ∧ ch.content ≠ []) ∧
        ∀ ch ∈ threeFullChapters, ch.content ≠ [] → ch.chapterNumber ≤ 3) :=
  canRefineChapter_iff threeFullChapters 3 (by decide)

/-- C6 counterexample: with chapters 1 to 3 generated, chapter 2 is not the
frontier and fails the predicate, yet invoking the refine handler on it
raises no error and actually clears chapter 2 for restreaming: the refine
of a non-frontier chapter is executed, not rejected. -/
theorem non_frontier_refine_not_rejected :
    canRefineChapter threeFullChapters 2 = false ∧
    canRefineChapter threeFullChapters 3 = true ∧
    (handleRefineChapter frontierState 2
      (FetchOutcome.streamOk [SSEvent.content ['n']])).error = none ∧
    (handleRefineChapter frontierState 2
      (FetchOutcome.streamOk [SSEvent.content ['n']])).chapters.map
        (fun ch => (ch.content, ch.isGenerating)) =
      [(['a'], false), ([], true), (['c'], false)] := by
  decide

/-- Editor state holding one previously accepted chapter. -/
def acceptedChapterOne : Chapter :=
  { chapterNumber := 1, title := "Chapter 1", content := ['o', 'l', 'd'],
    wordCount := 1, generatedAt := some "t0", isGenerating := false }

def stateWithAccepted : EditorState :=
  { chapters := [acceptedChapterOne],
    selectedChapter := some 1, isGenerating := false, generatingChapter := none,
    error := none, isRefining := false, showRefineInput := false,
    refineInstructions := [], typewriterBuffer := [], displayedContent := [],
    storyCommits := [] }

/-- C2 (amended): an error before streaming begins leaves the chapter list
and the commit log untouched; a transport error after streaming began
commits nothing and records the error, but the target chapter has already
been cleared when streaming started and is not restored: it is left empty
and still flagged as generating. -/
theorem generation_error_no_commit (s : EditorState) (k : Nat)
    (events : List SSEvent) (msg : String) :
    ((handleGenerateChapter s k FetchOutcome.fetchFail).chapters = s.chapters ∧
     (handleGenerateChapter s k FetchOutcome.fetchFail).storyCommits = s.storyCommits) ∧
    ((handleGenerateChapter s k (FetchOutcome.transportError events msg)).storyCommits =
        s.storyCommits ∧
     (handleGenerateChapter s k (FetchOutcome.transportError events msg)).error =
        some msg ∧
     ∀ i : Nat,
       (handleGenerateChapter s k (FetchOutcome.transportError events msg)).chapters[i]? =
         (s.chapters[i]?).map (fun ch =>
           if ch.chapterNumber = k then
             { ch with content := [], wordCount := 0, generatedAt := none,
                       isGenerating := true }
           else ch)) := by
  refine ⟨⟨rfl, rfl⟩, ?_, ?_, ?_⟩
  · exact runStream_storyCommits _ events rfl
  · rfl
  · intro i
    rw [show (handleGenerateChapter s k
        (FetchOutcome.transportError events msg)).chapters =
        clearChapterForGeneration s.chapters k from
      runStream_chapters _ events rfl]
    unfold clearChapterForGeneration
    rw [List.getElem?_map]

/-- Witness for `generation_error_no_commit` at the accepted-chapter state. -/
theorem generation_error_no_commit_witness :
    (handleGenerateChapter stateWithAccepted 1 FetchOutcome.fetchFail).chapters =
      stateWithAccepted.chapters :=
  (generation_error_no_commit stateWithAccepted 1 [] "m").1.1

/-- C2 counterexample: chapter 1 held accepted content before the
generation; after a transport error in mid-stream, the chapter holds empty
content, so the previously accepted content is not retained. -/
theorem generation_error_discards_previous_content :
    stateWithAccepted.chapters.map (fun ch => ch.content) = [['o', 'l', 'd']] ∧
    (handleGenerateChapter stateWithAccepted 1
      (FetchOutcome.transportError [SSEvent.content ['p']] "network error")).chapters.map
      (fun ch => ch.content) = [[]] := by
  decide

/-- Editor state in the middle of generating chapter 1, chapter 2 pending. -/
def busyChapters : List Chapter :=
  [{ chapterNumber := 1, title := "Chapter 1", content := [], wordCount := 0,
     generatedAt := none, isGenerating := true },
   { chapterNumber := 2, title := "Chapter 2", content := [], wordCount := 0,
     generatedAt := none, isGenerating := false }]

def busyEditor : EditorState :=
  { chapters := busyChapters,
    selectedChapter := some 1, isGenerating := true, generatingChapter := some 1,
    error := none, isRefining := false, showRefineInput := false,
    refineInstructions := [], typewriterBuffer := ['a'], displayedContent := [],
    storyCommits := [] }

/-- C3 (amended): the single-flight discipline is enforced only by the UI:
every control that can start a generation or refinement is disabled while
one is active; the handlers themselves check nothing — invoking the
generation handler always proceeds, installing the new target as the
active generating chapter with no error, so no GenerationBusy failure
exists. -/
theorem single_flight_ui_gating (s : EditorState) (ch : Chapter) (k : Nat)
    (events : List SSEvent) :
    (generateButtonEnabled s ch = true → s.isGenerating = false) ∧
    (placeholderGenerateEnabled s k = true → s.isGenerating = false) ∧
    (regenerateButtonEnabled s k = true →
      s.isGenerating = false ∧ s.isRefining = false) ∧
    (refineSubmitEnabled s k = true → s.isRefining = false) ∧
    (handleGenerateChapter s k (FetchOutcome.streamOk events)).generatingChapter =
      some k ∧
    (handleGenerateChapter s k (FetchOutcome.streamOk events)).error = none := by
  refine ⟨?_, ?_, ?_, ?_, ?_, ?_⟩
  · intro h
    simp [generateButtonEnabled] at h
    tauto
  · intro h
    simp [placeholderGenerateEnabled] at h
    tauto
  · intro h
    simp [regenerateButtonEnabled] at h
    tauto
  · intro h
    simp [refineSubmitEnabled] at h
    tauto
  · exact runStream_generatingChapter _ events rfl
  · exact runStream_error _ events rfl

/-- Witness for `single_flight_ui_gating`: in the idle three-chapter state
the enabled chapter-list button certifies that no generation is active. -/
theorem single_flight_ui_gating_witness :
    outOfOrderState.isGenerating = false :=
  (single_flight_ui_gating outOfOrderState
    { chapterNumber := 1, title := "Chapter 1", content := [], wordCount := 0,
      generatedAt := none, isGenerating := false } 1 []).1 (by decide)

/-- C3 counterexample: while chapter 1 is actively generating, invoking
the generation handler for chapter 2 is not rejected: no error is set and
the active generation target is replaced, and the step-level hook likewise
issues its request with no busy check. -/
theorem concurrent_generate_not_rejected :
    busyEditor.isGenerating = true ∧
    busyEditor.generatingChapter = some 1 ∧
    (handleGenerateChapter busyEditor 2 (FetchOutcome.streamOk [])).error = none ∧
    (handleGenerateChapter busyEditor 2
      (FetchOutcome.streamOk [])).generatingChapter = some 2 ∧
    generateContentActions 2 =
      [AdvanceAction.generationRequested 2 "generate_paragraph_summary"] := by
  decide

/-- C7: regeneration of chapter k after confirmation, when chapters after
k exist: every chapter numbered above k is cleared (content emptied, word
count zeroed, timestamp removed), chapters below k are untouched, chapter
k itself is cleared and flagged as generating, the streamed fragments of
the regeneration fill the typewriter buffer, and nothing is committed at
this point. -/
theorem handleRegenerateChapter_cascade (s : EditorState) (k : Nat)
    (events : List SSEvent)
    (hLater : hasLaterChapters s.chapters k = true) :
    (handleRegenerateChapter s k true (FetchOutcome.streamOk events)).typewriterBuffer =
      (sseContents events).flatten ∧
    (handleRegenerateChapter s k true (FetchOutcome.streamOk events)).storyCommits =
      s.storyCommits ∧
    (handleRegenerateChapter s k true (FetchOutcome.streamOk events)).isGenerating =
      true ∧
    (handleRegenerateChapter s k true (FetchOutcome.streamOk events)).generatingChapter =
      some k ∧
    ∀ i : Nat,
      (handleRegenerateChapter s k true (FetchOutcome.streamOk events)).chapters[i]? =
        (s.chapters[i]?).map (fun ch =>
          if k < ch.chapterNumber then
            { ch with content := [], wordCount := 0, generatedAt := none }
          else if ch.chapterNumber = k then
            { ch with content := [], wordCount := 0, generatedAt := none,
                      isGenerating := true }
          else ch) := by
  have hre : handleRegenerateChapter s k true (FetchOutcome.streamOk events) =
      handleGenerateChapter
        { s with chapters := clearLaterChapters s.chapters k } k
        (FetchOutcome.streamOk events) := by
    unfold handleRegenerateChapter
    rw [if_pos rfl, if_pos hLater]
  rw [hre]
  refine ⟨?_, ?_, ?_, ?_, ?_⟩
  · exact runStream_typewriterBuffer _ events rfl
  · exact runStream_storyCommits _ events rfl
  · exact runStream_isGenerating _ events rfl
  · exact runStream_generatingChapter _ events rfl
  · intro i
    rw [show (handleGenerateChapter
        { s with chapters := clearLaterChapters s.chapters k } k
        (FetchOutcome.streamOk events)).chapters =
        clearChapterForGeneration (clearLaterChapters s.chapters k) k from
      runStream_chapters _ events rfl]
    unfold clearChapterForGeneration clearLaterChapters
    rw [List.getElem?_map, List.getElem?_map, Option.map_map]
    rcases s.chapters[i]? with _ | ch
    · rfl
    · show some _ = some _
      by_cases h1 : k < ch.chapterNumber
      · have h2 : ¬ ch.chapterNumber = k := by omega
        simp only [Function.comp, if_pos h1, if_neg h2]
      · by_cases h2 : ch.chapterNumber = k
        · simp only [Function.comp, if_neg h1, if_pos h2]
        · simp only [Function.comp, if_neg h1, if_neg h2]

/-- Witness for `handleRegenerateChapter_cascade` at the fully generated
three-chapter state, regenerating chapter 2. -/
theorem handleRegenerateChapter_cascade_witness :
    (handleRegenerateChapter frontierState 2 true
      (FetchOutcome.streamOk [SSEvent.content ['z']])).storyCommits =
      frontierState.storyCommits :=
  (handleRegenerateChapter_cascade frontierState 2 [SSEvent.content ['z']]
    (by decide)).2.1

/-- Editor state at the start of a generation of chapter 1: the chapter is
cleared and flagged, the typewriter state is reset. -/
def playbackStart : EditorState :=
  { chapters :=
      [{ chapterNumber := 1, title := "Chapter 1", content := [], wordCount := 0,
         generatedAt := none, isGenerating := true }],
    selectedChapter := some 1, isGenerating := true, generatingChapter := some 1,
    error := none, isRefining := false, showRefineInput := false,
    refineInstructions := [], typewriterBuffer := [], displayedContent := [],
    storyCommits := [] }

/-- An interleaving in which the playback catches up to the buffer while
the stream is still open, then more fragments arrive. -/
def prematureInterleaving : List PlayEvent :=
  [PlayEvent.frag ['a', 'b'], PlayEvent.tick "t1", PlayEvent.tick "t2",
   PlayEvent.frag ['c', 'd'], PlayEvent.tick "t3", PlayEvent.tick "t4",
   PlayEvent.close]

/-- C1 (amended): the finalize condition the code tests is catch-up of the
displayed text with a non-empty buffer, not stream closure.  For every
interleaving in which the close event is processed before the playback
catches up — any close-free mix of fragment arrivals and playback ticks
during which no finalize commit fires and which leaves the displayed text
still strictly behind the buffer, followed by the close and enough ticks —
finalize is performed exactly once, at the tick at which the displayed
text reaches the full buffer, and at that moment the stream has closed. -/
theorem playback_commit_once_when_close_precedes_catchup
    (s0 : EditorState) (pre : List PlayEvent) (n : Nat) (now : String)
    (h0 : DispInv s0)
    (hNoClose : PlayEvent.close ∉ pre)
    (hNoCommit : (playRun s0 pre).commitLog = [])
    (hBehind : (playRun s0 pre).est.displayedContent.length <
      (playRun s0 pre).est.typewriterBuffer.length)
    (hN : (playRun s0 pre).est.typewriterBuffer.length -
      (playRun s0 pre).est.displayedContent.length ≤ n) :
    (playRun s0 (pre ++
        PlayEvent.close :: List.replicate n (PlayEvent.tick now))).commitLog =
      [true] ∧
    (playRun s0 (pre ++
        PlayEvent.close :: List.replicate n (PlayEvent.tick now))).est.displayedContent =
      (playRun s0 pre).est.typewriterBuffer := by
  have hInv : DispInv (playRun s0 pre).est :=
    DispInv_playRun_aux pre { est := s0, streamClosed := false, commitLog := [] } h0
  have hOpen : (playRun s0 pre).streamClosed = false :=
    playRun_no_close_streamClosed pre
      { est := s0, streamClosed := false, commitLog := [] } hNoClose rfl
  unfold playRun
  rw [List.foldl_append]
  rw [show List.foldl playStep
      { est := s0, streamClosed := false, commitLog := [] } pre = playRun s0 pre
    from rfl]
  rw [List.foldl_cons]
  rw [show playStep (playRun s0 pre) PlayEvent.close =
      { playRun s0 pre with streamClosed := true } from rfl]
  have hcu := ticks_catch_up now n { playRun s0 pre with streamClosed := true }
    hInv hBehind hN
  refine ⟨?_, ?_⟩
  · rw [hcu.1]
    show (playRun s0 pre).commitLog ++ [true] = [true]
    rw [hNoCommit]
    rfl
  · rw [hcu.2.1]

/-- Witness for `playback_commit_once_when_close_precedes_catchup`: ticks
interleaved among the fragments without catching up, then close and two
ticks. -/
theorem playback_commit_once_witness :
    (playRun playbackStart
      ([PlayEvent.frag ['a', 'b', 'c'], PlayEvent.tick "t",
        PlayEvent.frag ['d'], PlayEvent.tick "t"] ++
        PlayEvent.close :: List.replicate 2 (PlayEvent.tick "t"))).commitLog =
      [true] :=
  (playback_commit_once_when_close_precedes_catchup playbackStart
    [PlayEvent.frag ['a', 'b', 'c'], PlayEvent.tick "t",
     PlayEvent.frag ['d'], PlayEvent.tick "t"]
    2 "t" rfl (by decide) (by decide) (by decide) (by decide)).1

/-- C1 counterexample: in the interleaving in which the fragments pause
long enough for the typewriter to catch up, finalize fires while the
stream is still open, and fires a second time after the next fragments
are consumed: the commit log holds two commits, both performed before the
close event was processed. -/
theorem playback_commits_twice_before_close :
    (playRun playbackStart prematureInterleaving).commitLog = [false, false] := by
  decide

/-- Events of a generic playback run used by the displayed-text witness. -/
def mixedPlayback : List PlayEvent :=
  [PlayEvent.frag ['x', 'y', 'z'], PlayEvent.tick "t1", PlayEvent.frag ['w'],
   PlayEvent.tick "t2", PlayEvent.close, PlayEvent.tick "t3"]

/-- C8: starting from a state whose displayed text is an initial segment
of the buffer (in particular the reset state of a fresh generation), after
any interleaving of fragment arrivals, ticks and the close event, the
displayed text is still an initial segment of the raw buffer, its length
never exceeds the buffer length, and whenever the buffer is strictly
ahead, the next tick extends the displayed text by exactly the one next
character of the buffer, skipping nothing. -/
theorem playback_displayed_initial_segment (s0 : EditorState)
    (events : List PlayEvent) (now : String) (h0 : DispInv s0) :
    DispInv (playRun s0 events).est ∧
    (playRun s0 events).est.displayedContent.length ≤
      (playRun s0 events).est.typewriterBuffer.length ∧
    ((playRun s0 events).est.displayedContent.length <
        (playRun s0 events).est.typewriterBuffer.length →
      (typewriterTick (playRun s0 events).est now).displayedContent =
        (playRun s0 events).est.displayedContent ++
          ((playRun s0 events).est.typewriterBuffer[
            (playRun s0 events).est.displayedContent.length]?).toList) := by
  have hInv : DispInv (playRun s0 events).est :=
    DispInv_playRun_aux events { est := s0, streamClosed := false, commitLog := [] } h0
  refine ⟨hInv, DispInv_length hInv, ?_⟩
  intro hlt
  rw [typewriterTick_displayed _ now hlt, List.take_succ]
  have hInv2 := hInv
  unfold DispInv at hInv2
  rw [← hInv2]

/-- Witness for `playback_displayed_initial_segment` on a mixed run. -/
theorem playback_displayed_initial_segment_witness :
    DispInv (playRun playbackStart mixedPlayback).est :=
  (playback_displayed_initial_segment playbackStart mixedPlayback "t" rfl).1

/-- Result of clicking the chapter-viewer placeholder Generate button on
chapter 3 with chapters 1 and 2 still empty, followed by a clean stream
and the two ticks that play the received text out. -/
def bypassResult : EditorState :=
  typewriterTick
    (typewriterTick
      (handleGenerateChapter outOfOrderState 3
        (FetchOutcome.streamOk [SSEvent.content ['H', 'i']])) "t1") "t1"

/-- C4 (code defect): with chapters 1 to 3 all empty, the chapter-viewer
placeholder button for selected chapter 3 is enabled even though
`canGenerateChapter` rejects chapter 3, and driving the generation through
it to completion commits content for chapter 3 while chapters 1 and 2 are
still empty: the set of chapters with content is no longer downward
closed, contradicting the enforced chapter order the project documents. -/
theorem chapter_order_bypassed_via_placeholder :
    placeholderGenerateEnabled outOfOrderState 3 = true ∧
    canGenerateChapter outOfOrderState.chapters 3 = false ∧
    ¬ ChaptersDownwardClosed bypassResult.chapters ∧
    bypassResult.storyCommits =
      [[(3, { content := ['H', 'i'], word_count := 1,
              generated_at := some "t1", scene_title := "Chapter 3" })]] := by
  decide

/-- A story that has completed step 1 only. -/
def storyAtStepOne : Story :=
  { story_id := "s1", current_step := 1, steps := [(1, ['A'])] }

/-- C9 (amended): a successful Advance moves the frontier forward by one
step and commits no step content, but the app-level handler then
automatically triggers generation for the new current step whenever that
step has a generation endpoint (steps 1 to 9); only a step with no
endpoint (step 10) starts no generation. -/
theorem advance_then_autogenerate (story updated : Story)
    (h : advanceStoryBackend story = Except.ok updated) :
    updated.current_step = story.current_step + 1 ∧
    updated.steps = story.steps ∧
    handleAdvanceStory story =
      AdvanceAction.setStory updated ::
        AdvanceAction.stepChange updated.current_step ::
          generateContentActions updated.current_step ∧
    (∀ url, GENERATION_ENDPOINTS updated.current_step = some url →
      AdvanceAction.generationRequested updated.current_step url ∈
        handleAdvanceStory story) ∧
    (GENERATION_ENDPOINTS updated.current_step = none →
      ∀ m u, AdvanceAction.generationRequested m u ∉ handleAdvanceStory story) := by
  have hadv := h
  unfold advanceStoryBackend at hadv
  split at hadv
  · cases hadv
  · split at hadv
    · cases hadv
    · injection hadv with hadv
      have hstory : handleAdvanceStory story =
          AdvanceAction.setStory updated ::
            AdvanceAction.stepChange updated.current_step ::
              generateContentActions updated.current_step := by
        unfold handleAdvanceStory
        rw [h]
      refine ⟨by rw [← hadv], by rw [← hadv], hstory, ?_, ?_⟩
      · intro url hu
        rw [hstory]
        simp [generateContentActions, hu]
      · intro hn m u
        rw [hstory]
        simp only [generateContentActions, hn]
        by_cases h10 : updated.current_step = 10
        · simp [h10]
        · simp [h10]

/-- Witness for `advance_then_autogenerate` at the step-one story. -/
theorem advance_then_autogenerate_witness :
    ({ story_id := "s1", current_step := 2, steps := [(1, ['A'])] } : Story).current_step =
      storyAtStepOne.current_step + 1 :=
  (advance_then_autogenerate storyAtStepOne
    { story_id := "s1", current_step := 2, steps := [(1, ['A'])] } rfl).1

/-- C9 counterexample: advancing the step-one story, whose current step
holds non-empty content, emits a generation request for the new current
step: Advance does start a generation. -/
theorem advance_triggers_generation :
    advanceStoryBackend storyAtStepOne =
      Except.ok { story_id := "s1", current_step := 2, steps := [(1, ['A'])] } ∧
    AdvanceAction.generationRequested 2 "generate_paragraph_summary" ∈
      handleAdvanceStory storyAtStepOne :=
  ⟨rfl, by decide⟩

/-- C10: at the finalize tick, the chapter map committed to the parent is
derived from the finalized chapters, in which every generating chapter
receives the full raw buffer as content and a word count computed by
splitting that buffer on single spaces; the complete event of the stream
merely stores its word count in a loop variable and leaves the component
state untouched, so the streamed word count never reaches the commit. -/
theorem finalize_word_count_from_raw_text (s : EditorState) (now : String)
    (h2 : s.typewriterBuffer.length = s.displayedContent.length + 1) :
    (typewriterTick s now).storyCommits = s.storyCommits ++
      [updatedChaptersData (finalizeChapters s.chapters s.typewriterBuffer now)] ∧
    (∀ ch ∈ s.chapters, ch.isGenerating = true →
      (ch.chapterNumber,
        ({ content := s.typewriterBuffer,
           word_count := (splitOnSpace s.typewriterBuffer).length,
           generated_at := some now, scene_title := ch.title } : ChapterData)) ∈
        updatedChaptersData (finalizeChapters s.chapters s.typewriterBuffer now)) ∧
    (∀ (ls : StreamLoopState) (es : EditorState) (wc : Nat),
      processSSE ls es (SSEvent.complete wc) = ({ ls with wordCount := wc }, es)) := by
  refine ⟨?_, ?_, fun ls es wc => rfl⟩
  · rw [typewriterTick_of_finalize s now h2]
  · intro ch hm hg
    have hne : s.typewriterBuffer ≠ [] := by
      intro hnil
      rw [hnil] at h2
      simp at h2
    rw [updatedChaptersData_eq]
    refine List.mem_map.mpr
      ⟨{ ch with content := s.typewriterBuffer,
                 wordCount := (splitOnSpace s.typewriterBuffer).length,
                 generatedAt := some now,
                 isGenerating := false }, ?_, rfl⟩
    refine List.mem_filter.mpr ⟨?_, by simpa using hne⟩
    unfold finalizeChapters
    refine List.mem_map.mpr ⟨ch, hm, ?_⟩
    rw [if_pos hg]

/-- Editor state one character away from finishing the playback of a
two-word chapter. -/
def nearlyDoneState : EditorState :=
  { chapters :=
      [{ chapterNumber := 1, title := "Chapter 1", content := [], wordCount := 0,
         generatedAt := none, isGenerating := true }],
    selectedChapter := some 1, isGenerating := true, generatingChapter := some 1,
    error := none, isRefining := false, showRefineInput := false,
    refineInstructions := [], typewriterBuffer := ['h', 'i', ' ', 'u'],
    displayedContent := ['h', 'i', ' '], storyCommits := [] }

/-- Witness for `finalize_word_count_from_raw_text` at the nearly finished
state: the committed entry carries the derived word count 2. -/
theorem finalize_word_count_witness :
    (1, ({ content := ['h', 'i', ' ', 'u'], word_count := 2,
           generated_at := some "t9", scene_title := "Chapter 1" } : ChapterData)) ∈
      updatedChaptersData
        (finalizeChapters nearlyDoneState.chapters
          nearlyDoneState.typewriterBuffer "t9") :=
  (finalize_word_count_from_raw_text nearlyDoneState "t9" (by decide)).2.1
    { chapterNumber := 1, title := "Chapter 1", content := [], wordCount := 0,
      generatedAt := none, isGenerating := true } (by decide) (by decide)

end Snowmeth
